import Mathlib

/-!
Verification of the composer manager (manifest extraction and lock-file
synthesis) against its natural-language specification.

The definitions below are a shallow embedding of the TypeScript sources
`lib/modules/manager/composer/extract.ts` and
`lib/modules/manager/composer/artifacts.ts`.  Pure functions become Lean
functions; filesystem reads, host-rule lookups and process execution are
passed in explicitly through environment records; JavaScript string
operations are modelled over `String.data` (lists of characters).
-/

/-! ### JavaScript string primitives, modelled over lists of characters -/

/-- Model of JavaScript `String.prototype.startsWith`. -/
def jsStartsWith (s pre : String) : Bool :=
  pre.data.isPrefixOf s.data

/-- Model of JavaScript `String.prototype.endsWith`. -/
def jsEndsWith (s suffix : String) : Bool :=
  suffix.data.isSuffixOf s.data

/-- Scan for an occurrence of `pat` anywhere in the character list. -/
def charsInclude (pat : List Char) : List Char → Bool
  | [] => pat.isEmpty
  | c :: rest => pat.isPrefixOf (c :: rest) || charsInclude pat rest

/-- Model of JavaScript `String.prototype.includes`. -/
def jsIncludes (s pat : String) : Bool :=
  charsInclude pat.data s.data

/-- Model of JavaScript `String.prototype.trim`. -/
def jsTrim (s : String) : String :=
  String.mk (((s.data.dropWhile Char.isWhitespace).reverse.dropWhile
    Char.isWhitespace).reverse)

/-- JavaScript truthiness of an optional string: `undefined`, `null` and the
empty string are falsy. -/
def jsTruthyOptStr : Option String → Bool
  | none => false
  | some s => !s.data.isEmpty

/-! ### Shared path helpers (`util/fs`, `util/regex` call sites) -/

/-- `packageFileName.replace(regEx(/\.json$/), '.lock')`: replace a trailing
`.json` by `.lock`; a name not ending in `.json` is left unchanged. -/
def composerLockName (packageFileName : String) : String :=
  if jsEndsWith packageFileName ".json" then
    String.mk (packageFileName.data.take (packageFileName.data.length - 5)
      ++ ".lock".data)
  else packageFileName

/-- Characters of a path up to and including its last `/` (empty when the
path has no directory part). -/
def dirCharsUpToLastSlash (l : List Char) : List Char :=
  (l.reverse.dropWhile (fun c => c != '/')).reverse

/-- Modelled from the spec: the filesystem collaborator's
`sibling-path(path, name)` operation "replace the final path segment while
preserving the directory" (`getSiblingFileName` of `util/fs` is not among
the sources under verification). -/
def getSiblingFileName (fileName otherName : String) : String :=
  String.mk (dirCharsUpToLastSlash fileName.data ++ otherName.data)

/-! ### Data model of `extract.ts` -/

/-- Datasource identifier of the github-tags datasource module. -/
def githubTagsDatasourceId : String := "github-tags"

/-- Datasource identifier of the git-tags datasource module. -/
def gitTagsDatasourceId : String := "git-tags"

/-- Datasource identifier of the packagist datasource module. -/
def packagistDatasourceId : String := "packagist"

/-- A repository declaration object from the manifest's `repositories`
field.  `name` is only consulted for the array form; `packagist` and
`packagistOrg` model the `packagist` / `"packagist.org"` boolean members. -/
structure ComposerRepository where
  type : String
  url : String := ""
  name : Option String := none
  packagist : Option Bool := none
  packagistOrg : Option Bool := none
deriving DecidableEq, Repr

/-- One entry value of the `repositories` field: a repository object, a
boolean (used to disable the default registry), or any other JSON value. -/
inductive RepoVal where
  | obj (r : ComposerRepository)
  | boolVal (b : Bool)
  | other
deriving DecidableEq, Repr

/-- The `repositories` field: either an ordered array or an ordered
key-to-value mapping. -/
inductive ComposerRepositories where
  | arr (entries : List RepoVal)
  | objMap (entries : List (String × RepoVal))
deriving DecidableEq, Repr

/-- `Object.entries(repoJson)`: for the array form the keys are the decimal
indices, for the mapping form the declared keys. -/
def repoEntries : ComposerRepositories → List (String × RepoVal)
  | .arr l => l.enum.map (fun p => (toString p.1, p.2))
  | .objMap l => l

/-- `is.array(repoJson)`. -/
def isArrayRepos : ComposerRepositories → Bool
  | .arr _ => true
  | .objMap _ => false

/-- The fixed trailing path stripped from `composer`-type registry URLs. -/
def packagesJsonEnding : String := "/packages.json"

/-- `transformRegUrl`: drop a single trailing `/packages.json` (the regex
`/(\/packages\.json)$/` replaced by the empty string). -/
def transformRegUrl (url : String) : String :=
  if jsEndsWith url packagesJsonEnding then
    String.mk (url.data.take (url.data.length - packagesJsonEnding.data.length))
  else url

/-- Accumulators of `parseRepositories`: the named-repository map (as the
ordered list of assignments), the registry URL list, and the
"default registry still enabled" flag. -/
structure RepoAcc where
  repositories : List (String × ComposerRepository)
  registryUrls : List String
  packagist : Bool
deriving DecidableEq, Repr

/-- The entry loop of `parseRepositories`.  Entries are processed in
declaration order; each entry's contribution is prepended to the result of
the remaining entries, which matches the source's in-order appends. -/
def parseReposGo (isArr : Bool) : List (String × RepoVal) → RepoAcc
  | [] => { repositories := [], registryUrls := [], packagist := true }
  | (key, v) :: rest =>
    let acc := parseReposGo isArr rest
    match v with
    | .obj r =>
      let name := if isArr then r.name.getD "undefined" else key
      let repos :=
        if r.type == "vcs" || r.type == "git" || r.type == "path" then
          (name, r) :: acc.repositories
        else acc.repositories
      let urls :=
        if r.type == "composer" then transformRegUrl r.url :: acc.registryUrls
        else acc.registryUrls
      let pk :=
        if r.packagist == some false || r.packagistOrg == some false then false
        else acc.packagist
      { repositories := repos, registryUrls := urls, packagist := pk }
    | .boolVal b =>
      if (key == "packagist" || key == "packagist.org") && (b == false) then
        { repositories := acc.repositories, registryUrls := acc.registryUrls,
          packagist := false }
      else acc
    | .other => acc

/-- `parseRepositories`: the named-repository assignments and the registry
URL list, with `https://packagist.org` appended when no entry disabled it. -/
def parseRepositories (repoJson : ComposerRepositories) :
    List (String × ComposerRepository) × List String :=
  let acc := parseReposGo (isArrayRepos repoJson) (repoEntries repoJson)
  (acc.repositories,
    if acc.packagist then acc.registryUrls ++ ["https://packagist.org"]
    else acc.registryUrls)

/-- Lookup in the named-repository map.  The source assigns
`repositories[name] = repo` in entry order, so for duplicate names the last
assignment wins. -/
def lookupRepo (repos : List (String × ComposerRepository)) (name : String) :
    Option ComposerRepository :=
  (repos.reverse.find? (fun p => p.1 == name)).map (fun p => p.2)

/-- The raw `url` of every `composer`-typed repository object, in entry
order (used to state what `parseRepositories` appends to the registry URL
list). -/
def composerUrlsOfEntries (es : List (String × RepoVal)) : List String :=
  es.filterMap (fun p =>
    match p.2 with
    | .obj r => if r.type == "composer" then some r.url else none
    | _ => none)

/-- The declared URLs of all `composer`-typed repository entries. -/
def composerUrls (repoJson : ComposerRepositories) : List String :=
  composerUrlsOfEntries (repoEntries repoJson)

/-- One record of the lock snapshot's `packages` / `packages-dev` lists. -/
structure ComposerLockRecord where
  name : String
  version : String
deriving DecidableEq, Repr

/-- The lock snapshot consulted by extraction. -/
structure ComposerLock where
  packages : Option (List ComposerLockRecord) := none
  packagesDev : Option (List ComposerLockRecord) := none
deriving DecidableEq, Repr

/-- The manifest fields consulted by extraction (`require` and
`require-dev` are ordered name-to-constraint mappings). -/
structure ComposerConfig where
  require : Option (List (String × String)) := none
  requireDev : Option (List (String × String)) := none
  repositories : Option ComposerRepositories := none
  type : Option String := none
deriving DecidableEq, Repr

/-- An extracted dependency (the fields of `PackageDependency` that
`extract.ts` populates). -/
structure PackageDependency where
  depType : String
  depName : String
  currentValue : String
  datasource : Option String := none
  packageName : Option String := none
  extractVersion : Option String := none
  skipReason : Option String := none
  lockedVersion : Option String := none
  registryUrls : Option (List String) := none
deriving DecidableEq, Repr

/-- `lockedDep.version.replace(regEx(/^v/i), '')`: strip one leading `v` or
`V`. -/
def stripLeadingV (s : String) : String :=
  match s.data with
  | c :: rest => if c == 'v' || c == 'V' then String.mk rest else s
  | [] => s

/-- The special-cased dependency pushed for the reserved name `php`. -/
def phpDep (depType depName currentValue : String) : PackageDependency :=
  { depType, depName, currentValue,
    datasource := some githubTagsDatasourceId,
    packageName := some "php/php-src",
    extractVersion := some "^php-(?<version>.*)$" }

/-- The default-or-repository-bound datasource and package identifier
(`let datasource = ...; let packageName = ...` plus the `vcs`/`git` arm of
the repository-type switch). -/
def depDsPn (repoHit : Option ComposerRepository) (depName : String) :
    String × String :=
  match repoHit with
  | some r =>
    if r.type == "vcs" || r.type == "git" then (gitTagsDatasourceId, r.url)
    else (packagistDatasourceId, depName)
  | none => (packagistDatasourceId, depName)

/-- `if (depName !== packageName) dep.packageName = packageName`. -/
def depWithPackageName (depName pn : String) (dep : PackageDependency) :
    PackageDependency :=
  if depName == pn then dep else { dep with packageName := some pn }

/-- `if (!depName.includes('/')) dep.skipReason = 'unsupported'`. -/
def depWithUnsupported (depName : String) (dep : PackageDependency) :
    PackageDependency :=
  if depName.data.contains '/' then dep
  else { dep with skipReason := some "unsupported" }

/-- The lock-snapshot consultation: find the first record of the same name
in the group-appropriate list and, when its version is valid, record it with
one leading `v` stripped. -/
def depWithLocked (isVersion : String → Bool) (lockParsed : Option ComposerLock)
    (depType depName : String) (dep : PackageDependency) : PackageDependency :=
  match lockParsed with
  | none => dep
  | some lock =>
    match ((if depType == "require" then lock.packages
        else lock.packagesDev).getD []).find?
        (fun item => item.name == depName) with
    | none => dep
    | some lockedDep =>
      if isVersion lockedDep.version then
        { dep with lockedVersion := some (stripLeadingV lockedDep.version) }
      else dep

/-- The registry-URL attachment: only for unskipped dependencies that are
not bound to a named non-registry repository, and only when at least one
registry URL exists. -/
def depWithRegistryUrls (repoHit : Option ComposerRepository)
    (registryUrls : List String) (dep : PackageDependency) : PackageDependency :=
  if dep.skipReason == none
      && (match repoHit with
          | none => true
          | some r => r.type == "composer")
      && !registryUrls.isEmpty then
    { dep with registryUrls := some registryUrls }
  else dep

/-- The non-`php`, non-`path` arm of the extraction loop: choose datasource
and package identifier from the repository hit, flag unscoped names, consult
the lock snapshot, and attach registry URLs — in the source's assignment
order. -/
def regularDep (isVersion : String → Bool) (repoHit : Option ComposerRepository)
    (registryUrls : List String) (lockParsed : Option ComposerLock)
    (depType depName currentValue : String) : PackageDependency :=
  depWithRegistryUrls repoHit registryUrls
    (depWithLocked isVersion lockParsed depType depName
      (depWithUnsupported depName
        (depWithPackageName depName (depDsPn repoHit depName).2
          { depType, depName, currentValue,
            datasource := some (depDsPn repoHit depName).1 })))

/-- One iteration of the extraction loop: exactly one `PackageDependency`
is produced per declared name/constraint pair. -/
def extractDep (isVersion : String → Bool)
    (repositories : List (String × ComposerRepository))
    (registryUrls : List String) (lockParsed : Option ComposerLock)
    (depType depName rawVersion : String) : PackageDependency :=
  let currentValue := jsTrim rawVersion
  if depName == "php" then phpDep depType depName currentValue
  else
    match lookupRepo repositories depName with
    | some r =>
      if r.type == "path" then
        { depType, depName, currentValue, skipReason := some "path-dependency" }
      else
        regularDep isVersion (some r) registryUrls lockParsed depType depName
          currentValue
    | none =>
      regularDep isVersion none registryUrls lockParsed depType depName
        currentValue

/-- The loop over one dependency group. -/
def extractGroup (isVersion : String → Bool)
    (repositories : List (String × ComposerRepository))
    (registryUrls : List String) (lockParsed : Option ComposerLock)
    (depType : String) (entries : List (String × String)) :
    List PackageDependency :=
  entries.map (fun p =>
    extractDep isVersion repositories registryUrls lockParsed depType p.1 p.2)

/-- The named-repository map derived from the manifest (empty when the
manifest declares no `repositories` field). -/
def reposOf (cfg : ComposerConfig) : List (String × ComposerRepository) :=
  match cfg.repositories with
  | some rj => (parseRepositories rj).1
  | none => []

/-- The registry URL list derived from the manifest (empty when the
manifest declares no `repositories` field: `parseRepositories` is then not
called, so not even the default registry is appended). -/
def registryUrlsOf (cfg : ComposerConfig) : List String :=
  match cfg.repositories with
  | some rj => (parseRepositories rj).2
  | none => []

/-- The full dependency list: `require` entries first, then `require-dev`,
each group in declaration order. -/
def extractDeps (isVersion : String → Bool) (cfg : ComposerConfig)
    (lockParsed : Option ComposerLock) : List PackageDependency :=
  extractGroup isVersion (reposOf cfg) (registryUrlsOf cfg) lockParsed
    "require" (cfg.require.getD []) ++
  extractGroup isVersion (reposOf cfg) (registryUrlsOf cfg) lockParsed
    "require-dev" (cfg.requireDev.getD [])

/-- `extractPackageFile` (with manifest parsing and lock reading supplied by
the caller): yields no result when the dependency list is empty. -/
def extractPackageFile (isVersion : String → Bool) (cfg : ComposerConfig)
    (lockParsed : Option ComposerLock) : Option (List PackageDependency) :=
  let deps := extractDeps isVersion cfg lockParsed
  if deps.isEmpty then none else some deps

/-! ### Data model of `getAuthJson` (artifacts source, auth assembler) -/

/-- A credential rule as exposed by the host-rule store. -/
structure HostRule where
  resolvedHost : Option String := none
  username : Option String := none
  password : Option String := none
  token : Option String := none
deriving DecidableEq, Repr

/-- The `AuthJson` structure: every branch is absent until first written. -/
structure AuthJson where
  githubOauth : Option (List (String × String)) := none
  gitlabToken : Option (List (String × String)) := none
  gitlabDomains : Option (List String) := none
  httpBasic : Option (List (String × String × String)) := none
  bearer : Option (List (String × String)) := none
deriving DecidableEq, Repr

/-- Write the `github-oauth` branch when the selected GitHub token is
truthy. -/
def addGithubOauth (selectedGithubToken : Option String) (a : AuthJson) :
    AuthJson :=
  if jsTruthyOptStr selectedGithubToken then
    { a with githubOauth := some [("github.com", selectedGithubToken.getD "")] }
  else a

/-- One iteration of the gitlab host-rule loop: a truthy token merges the
host into `gitlab-token` and prepends it to `gitlab-domains`. -/
def gitlabStep (a : AuthJson) (r : HostRule) : AuthJson :=
  if jsTruthyOptStr r.token then
    let host := r.resolvedHost.getD "gitlab.com"
    { a with
      gitlabToken := some (a.gitlabToken.getD [] ++ [(host, r.token.getD "")]),
      gitlabDomains := some (host :: a.gitlabDomains.getD []) }
  else a

/-- The first guard of the packagist host-rule loop:
`resolvedHost && username && password`. -/
def hostRuleBasic (r : HostRule) : Bool :=
  jsTruthyOptStr r.resolvedHost && jsTruthyOptStr r.username
    && jsTruthyOptStr r.password

/-- The second guard of the packagist host-rule loop:
`resolvedHost && token`. -/
def hostRuleBearer (r : HostRule) : Bool :=
  jsTruthyOptStr r.resolvedHost && jsTruthyOptStr r.token

/-- A packagist rule that actually writes the `bearer` branch (the second
guard fires only when the first did not). -/
def hostRuleBearerFires (r : HostRule) : Bool :=
  !hostRuleBasic r && hostRuleBearer r

/-- One iteration of the packagist host-rule loop: resolved host with
username and password merges into `http-basic`, otherwise a resolved host
with a token merges into `bearer`. -/
def packagistStep (a : AuthJson) (r : HostRule) : AuthJson :=
  if hostRuleBasic r then
    { a with
      httpBasic := some (a.httpBasic.getD []
        ++ [(r.resolvedHost.getD "", r.username.getD "", r.password.getD "")]) }
  else if hostRuleBearer r then
    { a with
      bearer := some (a.bearer.getD []
        ++ [(r.resolvedHost.getD "", r.token.getD "")]) }
  else a

/-- `is.emptyObject(authJson)`: no branch was ever written. -/
def isEmptyAuth (a : AuthJson) : Bool :=
  a.githubOauth == none && a.gitlabToken == none && a.gitlabDomains == none
    && a.httpBasic == none && a.bearer == none

/-- `getAuthJson`, with the selected GitHub token (the result of
`findGithubToken` / `takePersonalAccessTokenIfPossible`, which live outside
the sources under verification) and the two host-rule query results passed
in.  Returns the assembled payload, or `none` for the serialized-`null`
case. -/
def getAuthJson (selectedGithubToken : Option String)
    (gitlabRules packagistRules : List HostRule) : Option AuthJson :=
  let a := addGithubOauth selectedGithubToken {}
  let a := gitlabRules.foldl gitlabStep a
  let a := packagistRules.foldl packagistStep a
  if isEmptyAuth a then none else some a

/-- Some credential rule yields a token or a username/password pair that
the assembler collects. -/
def anyCredential (selectedGithubToken : Option String)
    (gitlabRules packagistRules : List HostRule) : Bool :=
  jsTruthyOptStr selectedGithubToken
    || gitlabRules.any (fun r => jsTruthyOptStr r.token)
    || packagistRules.any (fun r => hostRuleBasic r || hostRuleBearer r)

/-- Every branch of the payload that is present is populated (never an
empty-but-present structure). -/
def authBranchesNonEmpty (a : AuthJson) : Bool :=
  (a.githubOauth != some []) && (a.gitlabToken != some [])
    && (a.gitlabDomains != some []) && (a.httpBasic != some [])
    && (a.bearer != some [])

/-! ### Data model of `updateArtifacts` (synthesis) -/

/-- The working-tree status returned by the source-control collaborator. -/
structure RepoStatus where
  modified : List String
  not_added : List String
  deleted : List String
deriving DecidableEq, Repr

/-- Outcome of running the planned commands: success followed by a
working-tree status query, or an exception carrying a message. -/
inductive ExecOutcome where
  | ok (status : RepoStatus)
  | error (message : String)
deriving DecidableEq, Repr

/-- The `artifactError` payload. -/
structure ArtifactError where
  lockFile : String
  stderr : String
deriving DecidableEq, Repr

/-- A produced file change. -/
inductive FileChange where
  | addition (path : String) (contents : Option String)
  | deletion (path : String)
deriving DecidableEq, Repr

/-- One element of the `UpdateArtifactsResult[]` list. -/
inductive UpdateArtifactsResult where
  | file (change : FileChange)
  | artifactError (e : ArtifactError)
deriving DecidableEq, Repr

/-- Outcome of parsing the lock file (`JSON.parse` + `safeParse`) or the new
manifest: success, schema failure (`safeParse` unsuccessful, the function
returns `null`), or a thrown `JSON.parse` exception (caught by the outer
handler). -/
inductive ParseOutcome where
  | ok
  | invalid
  | threw (msg : String)
deriving DecidableEq, Repr

/-- The externally visible side effects of a synthesis run that the
specification talks about: manifest writes and process executions. -/
inductive Effect where
  | writeFile (path content : String)
  | execCmds (commands : List String)
deriving DecidableEq, Repr

/-- The result of `updateArtifacts`: a returned value (`null` or a result
list) or a rethrown error. -/
inductive SynthOutcome where
  | result (r : Option (List UpdateArtifactsResult))
  | thrown (msg : String)
deriving DecidableEq, Repr

/-- The slice of the run configuration the planner consults. -/
structure UpdateConfig where
  isLockFileMaintenance : Bool
deriving DecidableEq, Repr

/-- The `UpdateArtifact` input: each updated dependency contributes its
(possibly absent) `depName`. -/
structure UpdateArtifact where
  packageFileName : String
  updatedDeps : List (Option String)
  newPackageFileContent : String
  config : UpdateConfig
deriving DecidableEq, Repr

/-- The collaborators of one synthesis run: filesystem reads, the vendor
directory existence check, the two parse outcomes, the install-required
predicate (`requireComposerDependencyInstallation`, from `./utils`), the
shell-quoting function (the `shlex` `quote`), the common argument string
(`getComposerArguments`, from `./utils`) and the execution outcome. -/
structure SynthesisEnv where
  readFile : String → Option String
  localPathExists : String → Bool
  parseLock : ParseOutcome
  parseConfig : ParseOutcome
  requireInstall : Bool
  quote : String → String
  composerArgs : String
  execOutcome : ExecOutcome

/-- Modelled from the spec: the fixed transient-failure sentinel message
(`TEMPORARY_ERROR` of `constants/error-messages`, outside the sources under
verification). -/
def TEMPORARY_ERROR_MSG : String := "temporary-error"

/-- Modelled from the spec: the fixed, distinct fatal error rethrown on
resource exhaustion (`SYSTEM_INSUFFICIENT_DISK_SPACE` of
`constants/error-messages`, outside the sources under verification). -/
def SYSTEM_INSUFFICIENT_DISK_SPACE : String := "disk-space"

/-- The resolver's "no installable set" message fragment tested by the
error handler. -/
def RESOLVE_ERROR_SNIPPET : String :=
  "Your requirements could not be resolved to an installable set of packages."

/-- The disk-full indication tested by the error handler. -/
def DISK_FULL_SNIPPET : String := "write error (disk full?)"

/-- The `catch` block of `updateArtifacts`: rethrow the transient sentinel
unchanged, rethrow the fixed disk-space error on a disk-full indication
(unless the resolver message matched first), and otherwise return a
single-element `artifactError` carrying the lock file path and the raw
message. -/
def handleUpdateError (lockFileName msg : String) : SynthOutcome :=
  if msg == TEMPORARY_ERROR_MSG then .thrown msg
  else if jsIncludes msg RESOLVE_ERROR_SNIPPET then
    .result (some [.artifactError { lockFile := lockFileName, stderr := msg }])
  else if jsIncludes msg DISK_FULL_SNIPPET then
    .thrown SYSTEM_INSUFFICIENT_DISK_SPACE
  else
    .result (some [.artifactError { lockFile := lockFileName, stderr := msg }])

/-- The main update arguments: an unscoped `update` for lock-file
maintenance, otherwise `update` scoped to the shell-quoted changed
dependency names plus `--with-dependencies`. -/
def mainComposerArgs (env : SynthesisEnv) (ua : UpdateArtifact) : String :=
  if ua.config.isLockFileMaintenance then "update"
  else
    jsTrim ("update " ++ String.intercalate " "
      ((ua.updatedDeps.filterMap id).map env.quote)) ++ " --with-dependencies"

/-- The planned command sequence: the conditional pre-update install triple
followed by the main update command, each with the common argument string
appended. -/
def buildCommands (env : SynthesisEnv) (ua : UpdateArtifact) : List String :=
  (if env.requireInstall then
    ["git stash -- composer.json",
     "composer install" ++ env.composerArgs,
     "git stash pop || true"]
   else []) ++
  ["composer " ++ (mainComposerArgs env ua ++ env.composerArgs)]

/-- `updateArtifacts`: the synthesis run, returning the outcome together
with the trace of manifest writes and command executions. -/
def updateArtifacts (env : SynthesisEnv) (ua : UpdateArtifact) :
    SynthOutcome × List Effect :=
  let lockFileName := composerLockName ua.packageFileName
  if !jsTruthyOptStr (env.readFile lockFileName) then (.result none, [])
  else
    let vendorDir := getSiblingFileName ua.packageFileName "vendor"
    let commitVendorFiles := env.localPathExists vendorDir
    let effs0 := [Effect.writeFile ua.packageFileName ua.newPackageFileContent]
    match env.parseLock with
    | .threw m => (handleUpdateError lockFileName m, effs0)
    | .invalid => (.result none, effs0)
    | .ok =>
      match env.parseConfig with
      | .threw m => (handleUpdateError lockFileName m, effs0)
      | .invalid => (.result none, effs0)
      | .ok =>
        let commands := buildCommands env ua
        let effs := effs0 ++ [Effect.execCmds commands]
        match env.execOutcome with
        | .error m => (handleUpdateError lockFileName m, effs)
        | .ok status =>
          if !(status.modified.contains lockFileName) then (.result none, effs)
          else
            let res0 : List UpdateArtifactsResult :=
              [.file (.addition lockFileName (env.readFile lockFileName))]
            if !commitVendorFiles then (.result (some res0), effs)
            else
              let vendorAdds :=
                ((status.modified ++ status.not_added).filter
                    (fun f => jsStartsWith f vendorDir)).map
                  (fun f =>
                    UpdateArtifactsResult.file (.addition f (env.readFile f)))
              let dels := status.deleted.map
                (fun f => UpdateArtifactsResult.file (.deletion f))
              (.result (some (res0 ++ vendorAdds ++ dels)), effs)

/-! ### Concrete runs used to evaluate the definitions -/

/-- Working-tree status of a run whose only deletion lies outside the
vendor directory. -/
def c1CounterStatus : RepoStatus :=
  { modified := ["composer.lock"], not_added := [], deleted := ["outside.txt"] }

/-- A run with a pre-existing vendor directory whose status deletes a file
outside it. -/
def c1CounterEnv : SynthesisEnv :=
  { readFile := fun p => some ("contents of " ++ p),
    localPathExists := fun _ => true,
    parseLock := .ok, parseConfig := .ok,
    requireInstall := false,
    quote := fun s => s, composerArgs := "",
    execOutcome := .ok c1CounterStatus }

/-- The update request for the run above. -/
def c1CounterUa : UpdateArtifact :=
  { packageFileName := "composer.json",
    updatedDeps := [some "foo/bar"],
    newPackageFileContent := "\x7b\x7d",
    config := { isLockFileMaintenance := false } }

/-- Working-tree status with vendor additions and a vendor deletion. -/
def c1WitnessStatus : RepoStatus :=
  { modified := ["a/composer.lock", "a/vendor/x.php"],
    not_added := ["a/vendor/new.php"],
    deleted := ["a/vendor/old.php"] }

/-- A run with a pre-existing vendor directory in a subdirectory. -/
def c1WitnessEnv : SynthesisEnv :=
  { readFile := fun p => some ("c " ++ p),
    localPathExists := fun _ => true,
    parseLock := .ok, parseConfig := .ok,
    requireInstall := true,
    quote := fun s => s, composerArgs := " --no-scripts",
    execOutcome := .ok c1WitnessStatus }

/-- The update request for the run above. -/
def c1WitnessUa : UpdateArtifact :=
  { packageFileName := "a/composer.json",
    updatedDeps := [some "foo/bar"],
    newPackageFileContent := "\x7b\x7d",
    config := { isLockFileMaintenance := false } }

/-- A status that does not modify the lock file. -/
def c2WitnessStatus : RepoStatus :=
  { modified := ["src/app.php"], not_added := [], deleted := [] }

/-- A run whose post-execution status leaves the lock file unmodified. -/
def c2WitnessEnv : SynthesisEnv :=
  { readFile := fun _ => some "lock",
    localPathExists := fun _ => false,
    parseLock := .ok, parseConfig := .ok,
    requireInstall := false,
    quote := fun s => s, composerArgs := "",
    execOutcome := .ok c2WitnessStatus }

/-- The update request for the run above. -/
def c2WitnessUa : UpdateArtifact :=
  { packageFileName := "composer.json",
    updatedDeps := [some "foo/bar"],
    newPackageFileContent := "\x7b\x7d",
    config := { isLockFileMaintenance := false } }

/-- A failure message carrying both the resolver text and the disk-full
indication. -/
def c3CounterMsg : String :=
  RESOLVE_ERROR_SNIPPET ++ (" " ++ DISK_FULL_SNIPPET)

/-- A run whose execution raises the combined message above. -/
def c3CounterEnv : SynthesisEnv :=
  { readFile := fun _ => some "lock",
    localPathExists := fun _ => false,
    parseLock := .ok, parseConfig := .ok,
    requireInstall := false,
    quote := fun s => s, composerArgs := "",
    execOutcome := .error c3CounterMsg }

/-- The update request for the run above. -/
def c3CounterUa : UpdateArtifact :=
  { packageFileName := "composer.json",
    updatedDeps := [some "foo/bar"],
    newPackageFileContent := "\x7b\x7d",
    config := { isLockFileMaintenance := false } }

/-- A run whose execution raises exactly the resolver message. -/
def c3WitnessEnv : SynthesisEnv :=
  { readFile := fun _ => some "lock",
    localPathExists := fun _ => false,
    parseLock := .ok, parseConfig := .ok,
    requireInstall := false,
    quote := fun s => s, composerArgs := "",
    execOutcome := .error RESOLVE_ERROR_SNIPPET }

/-- The update request for the run above. -/
def c3WitnessUa : UpdateArtifact :=
  { packageFileName := "composer.json",
    updatedDeps := [some "foo/bar"],
    newPackageFileContent := "\x7b\x7d",
    config := { isLockFileMaintenance := false } }

/-- A run with a required install step and two named updated deps. -/
def c4WitnessEnv : SynthesisEnv :=
  { readFile := fun _ => some "lock",
    localPathExists := fun _ => false,
    parseLock := .ok, parseConfig := .ok,
    requireInstall := true,
    quote := fun s => s, composerArgs := " --no-plugins",
    execOutcome := .ok { modified := [], not_added := [], deleted := [] } }

/-- The update request for the run above (one dep lacks a name). -/
def c4WitnessUa : UpdateArtifact :=
  { packageFileName := "composer.json",
    updatedDeps := [some "foo/bar", none, some "baz/qux"],
    newPackageFileContent := "\x7b\x7d",
    config := { isLockFileMaintenance := false } }

/-- The command plan of the run above. -/
def c4WitnessCmds : List String := buildCommands c4WitnessEnv c4WitnessUa

/-- A run in which no lock file exists. -/
def c10WitnessEnv : SynthesisEnv :=
  { readFile := fun _ => none,
    localPathExists := fun _ => false,
    parseLock := .ok, parseConfig := .ok,
    requireInstall := false,
    quote := fun s => s, composerArgs := "",
    execOutcome := .ok { modified := [], not_added := [], deleted := [] } }

/-- The update request for the run above. -/
def c10WitnessUa : UpdateArtifact :=
  { packageFileName := "composer.json",
    updatedDeps := [some "foo/bar"],
    newPackageFileContent := "\x7b\x7d",
    config := { isLockFileMaintenance := false } }

/-- A composer repository whose URL ends in the suffix twice. -/
def c5CounterRepo : ComposerRepository :=
  { type := "composer",
    url := "https://example.com/packages.json/packages.json" }

/-- A repositories block holding only `c5CounterRepo`. -/
def c5CounterRepoJson : ComposerRepositories :=
  .objMap [("gitlab", .obj c5CounterRepo)]

/-- A composer repository whose URL ends in the suffix once. -/
def c5WitnessRepo : ComposerRepository :=
  { type := "composer", url := "https://reg.example.com/sub/packages.json" }

/-- A repositories block holding only `c5WitnessRepo`. -/
def c5WitnessRepoJson : ComposerRepositories :=
  .objMap [("reg", .obj c5WitnessRepo)]

/-- A manifest declaring only the reserved dependency name. -/
def c6CounterCfg : ComposerConfig := { require := some [("php", "^8.1")] }

/-- A manifest whose dependency names all lack a namespace separator. -/
def c6WitnessCfg : ComposerConfig :=
  { require := some [("foo", "1.0")], requireDev := some [("bar", "2.0")] }

/-- A path-typed repository declaration named after the reserved name. -/
def c7CounterRepo : ComposerRepository := { type := "path", url := "local/php" }

/-- A manifest binding the reserved name to a path-typed repository. -/
def c7CounterCfg : ComposerConfig :=
  { require := some [("php", "^8.1")],
    repositories := some (.objMap [("php", .obj c7CounterRepo)]) }

/-- A path-typed repository declaration for a namespaced name. -/
def c7WitnessRepo : ComposerRepository :=
  { type := "path", url := "packages/local" }

/-- A manifest binding a namespaced name to a path-typed repository. -/
def c7WitnessCfg : ComposerConfig :=
  { require := some [("acme/local", "*")],
    repositories := some (.objMap [("acme/local", .obj c7WitnessRepo)]) }

/-- The dependency extracted from the manifest above. -/
def c7WitnessDep : PackageDependency :=
  { depType := "require", depName := "acme/local", currentValue := "*",
    skipReason := some "path-dependency" }

/-- A manifest declaring the reserved name, paired with a lock record of
the same name. -/
def c8CounterCfg : ComposerConfig := { require := some [("php", "^8.1")] }

/-- A lock snapshot whose production list has a record named `php`. -/
def c8CounterLock : ComposerLock :=
  { packages := some [{ name := "php", version := "v1.2.3" }] }

/-- A manifest declaring one namespaced dependency. -/
def c8WitnessCfg : ComposerConfig := { require := some [("foo/bar", "^1.0")] }

/-- A lock snapshot with a matching record whose version has a leading
`v`. -/
def c8WitnessLock : ComposerLock :=
  { packages := some [{ name := "foo/bar", version := "v1.2.3" }] }

/-- The dependency extracted from the manifest above. -/
def c8WitnessDep : PackageDependency :=
  { depType := "require", depName := "foo/bar", currentValue := "^1.0",
    datasource := some packagistDatasourceId, lockedVersion := some "1.2.3" }

/-! ### Helper lemmas -/

/-- A synthesis run writes the manifest at most once and executes at most
one command plan, in that order. -/
theorem updateArtifacts_trace (env : SynthesisEnv) (ua : UpdateArtifact) :
    (updateArtifacts env ua).2 = [] ∨
    (updateArtifacts env ua).2 =
      [Effect.writeFile ua.packageFileName ua.newPackageFileContent] ∨
    (updateArtifacts env ua).2 =
      [Effect.writeFile ua.packageFileName ua.newPackageFileContent,
       Effect.execCmds (buildCommands env ua)] := by
  cases h : jsTruthyOptStr (env.readFile (composerLockName ua.packageFileName)) with
  | false => simp [updateArtifacts, h]
  | true =>
    cases hpl : env.parseLock <;> cases hpc : env.parseConfig <;>
      cases heo : env.execOutcome <;>
      simp [updateArtifacts, h, hpl, hpc, heo] <;> repeat' split <;> try simp

theorem depWithPackageName_depName (n pn : String) (dep : PackageDependency) :
    (depWithPackageName n pn dep).depName = dep.depName := by
  unfold depWithPackageName; split <;> rfl

theorem depWithUnsupported_depName (n : String) (dep : PackageDependency) :
    (depWithUnsupported n dep).depName = dep.depName := by
  unfold depWithUnsupported; split <;> rfl

theorem depWithLocked_depName (iv : String → Bool) (lock : Option ComposerLock)
    (dt n : String) (dep : PackageDependency) :
    (depWithLocked iv lock dt n dep).depName = dep.depName := by
  unfold depWithLocked
  split
  · rfl
  · split
    · rfl
    · split <;> rfl

theorem depWithRegistryUrls_depName (hit : Option ComposerRepository)
    (urls : List String) (dep : PackageDependency) :
    (depWithRegistryUrls hit urls dep).depName = dep.depName := by
  unfold depWithRegistryUrls; split <;> rfl

theorem regularDep_depName (iv : String → Bool) (hit : Option ComposerRepository)
    (urls : List String) (lock : Option ComposerLock) (dt n cv : String) :
    (regularDep iv hit urls lock dt n cv).depName = n := by
  unfold regularDep
  rw [depWithRegistryUrls_depName, depWithLocked_depName,
    depWithUnsupported_depName, depWithPackageName_depName]

theorem extractDep_depName (iv : String → Bool)
    (repos : List (String × ComposerRepository)) (urls : List String)
    (lock : Option ComposerLock) (dt n v : String) :
    (extractDep iv repos urls lock dt n v).depName = n := by
  unfold extractDep
  repeat' split
  · rfl
  · rfl
  · exact regularDep_depName ..
  · exact regularDep_depName ..

theorem depWithPackageName_depType (n pn : String) (dep : PackageDependency) :
    (depWithPackageName n pn dep).depType = dep.depType := by
  unfold depWithPackageName; split <;> rfl

theorem depWithUnsupported_depType (n : String) (dep : PackageDependency) :
    (depWithUnsupported n dep).depType = dep.depType := by
  unfold depWithUnsupported; split <;> rfl

theorem depWithLocked_depType (iv : String → Bool) (lock : Option ComposerLock)
    (dt n : String) (dep : PackageDependency) :
    (depWithLocked iv lock dt n dep).depType = dep.depType := by
  unfold depWithLocked
  split
  · rfl
  · split
    · rfl
    · split <;> rfl

theorem depWithRegistryUrls_depType (hit : Option ComposerRepository)
    (urls : List String) (dep : PackageDependency) :
    (depWithRegistryUrls hit urls dep).depType = dep.depType := by
  unfold depWithRegistryUrls; split <;> rfl

theorem regularDep_depType (iv : String → Bool) (hit : Option ComposerRepository)
    (urls : List String) (lock : Option ComposerLock) (dt n cv : String) :
    (regularDep iv hit urls lock dt n cv).depType = dt := by
  unfold regularDep
  rw [depWithRegistryUrls_depType, depWithLocked_depType,
    depWithUnsupported_depType, depWithPackageName_depType]

theorem extractDep_depType (iv : String → Bool)
    (repos : List (String × ComposerRepository)) (urls : List String)
    (lock : Option ComposerLock) (dt n v : String) :
    (extractDep iv repos urls lock dt n v).depType = dt := by
  unfold extractDep
  repeat' split
  · rfl
  · rfl
  · exact regularDep_depType ..
  · exact regularDep_depType ..

theorem depWithLocked_skipReason (iv : String → Bool) (lock : Option ComposerLock)
    (dt n : String) (dep : PackageDependency) :
    (depWithLocked iv lock dt n dep).skipReason = dep.skipReason := by
  unfold depWithLocked
  split
  · rfl
  · split
    · rfl
    · split <;> rfl

theorem depWithRegistryUrls_skipReason (hit : Option ComposerRepository)
    (urls : List String) (dep : PackageDependency) :
    (depWithRegistryUrls hit urls dep).skipReason = dep.skipReason := by
  unfold depWithRegistryUrls; split <;> rfl

theorem depWithPackageName_skipReason (n pn : String) (dep : PackageDependency) :
    (depWithPackageName n pn dep).skipReason = dep.skipReason := by
  unfold depWithPackageName; split <;> rfl

/-- An unscoped name always leaves the regular arm with reason
`unsupported`. -/
theorem regularDep_skipReason_unscoped (iv : String → Bool)
    (hit : Option ComposerRepository) (urls : List String)
    (lock : Option ComposerLock) (dt n cv : String)
    (h : n.data.contains '/' = false) :
    (regularDep iv hit urls lock dt n cv).skipReason = some "unsupported" := by
  unfold regularDep
  rw [depWithRegistryUrls_skipReason, depWithLocked_skipReason]
  unfold depWithUnsupported
  rw [h]
  rfl

theorem depWithRegistryUrls_lockedVersion (hit : Option ComposerRepository)
    (urls : List String) (dep : PackageDependency) :
    (depWithRegistryUrls hit urls dep).lockedVersion = dep.lockedVersion := by
  unfold depWithRegistryUrls; split <;> rfl

/-- When the first lock record of the same name has a valid version, the
regular arm records it with a leading `v` stripped. -/
theorem regularDep_lockedVersion (iv : String → Bool)
    (hit : Option ComposerRepository) (urls : List String)
    (lock : ComposerLock) (dt n cv : String) (rec : ComposerLockRecord)
    (hfind : ((if dt == "require" then lock.packages else lock.packagesDev).getD
        []).find? (fun item => item.name == n) = some rec)
    (hver : iv rec.version = true) :
    (regularDep iv hit urls (some lock) dt n cv).lockedVersion =
      some (stripLeadingV rec.version) := by
  unfold regularDep
  rw [depWithRegistryUrls_lockedVersion]
  simp only [depWithLocked, hfind, hver, if_true]

/-- Every extracted dependency comes from one declared pair of one of the
two groups. -/
theorem mem_extractDeps (iv : String → Bool) (cfg : ComposerConfig)
    (lock : Option ComposerLock) (d : PackageDependency)
    (h : d ∈ extractDeps iv cfg lock) :
    (∃ p, p ∈ cfg.require.getD [] ∧
      d = extractDep iv (reposOf cfg) (registryUrlsOf cfg) lock "require" p.1 p.2) ∨
    (∃ p, p ∈ cfg.requireDev.getD [] ∧
      d = extractDep iv (reposOf cfg) (registryUrlsOf cfg) lock "require-dev" p.1 p.2) := by
  simp only [extractDeps, extractGroup, List.mem_append, List.mem_map] at h
  rcases h with ⟨p, hp, he⟩ | ⟨p, hp, he⟩
  · exact Or.inl ⟨p, hp, he.symm⟩
  · exact Or.inr ⟨p, hp, he.symm⟩

/-- The path-repository arm produces exactly the skipped record. -/
theorem extractDep_path (iv : String → Bool)
    (repos : List (String × ComposerRepository)) (urls : List String)
    (lock : Option ComposerLock) (dt n v : String) (r : ComposerRepository)
    (hphp : (n == "php") = false)
    (hr : lookupRepo repos n = some r) (hpath : r.type = "path") :
    extractDep iv repos urls lock dt n v =
      { depType := dt, depName := n, currentValue := jsTrim v,
        skipReason := some "path-dependency" } := by
  simp only [extractDep, hphp, Bool.false_eq_true, if_false, hr, hpath]
  simp

theorem strData_append (a b : String) : (a ++ b).data = a.data ++ b.data := by
  cases a; cases b; rfl

/-- Stripping is exact: appending the suffix back restores the input. -/
theorem transformRegUrl_append (u : String)
    (h : jsEndsWith u packagesJsonEnding = true) :
    transformRegUrl u ++ packagesJsonEnding = u := by
  unfold transformRegUrl
  rw [h, if_pos rfl]
  unfold jsEndsWith at h
  have hs := List.isSuffixOf_iff_suffix.mp h
  obtain ⟨t, ht⟩ := hs
  apply String.ext
  rw [strData_append]
  conv_rhs => rw [← ht]
  have hlen : (u.data.length - packagesJsonEnding.data.length) = t.length := by
    rw [← ht]
    simp
  rw [hlen]
  show (u.data.take t.length) ++ packagesJsonEnding.data = t ++ packagesJsonEnding.data
  rw [← ht, List.take_left]

/-- A URL without the trailing suffix is passed through unchanged. -/
theorem transformRegUrl_noop (u : String)
    (h : jsEndsWith u packagesJsonEnding = false) :
    transformRegUrl u = u := by
  unfold transformRegUrl
  rw [h]
  simp

/-- Every registry URL accumulated by the entry loop is the transform of a
declared composer-repository URL. -/
theorem mem_parseReposGo_urls (isArr : Bool) (es : List (String × RepoVal))
    (x : String) (hx : x ∈ (parseReposGo isArr es).registryUrls) :
    ∃ u ∈ composerUrlsOfEntries es, x = transformRegUrl u := by
  induction es with
  | nil => simp [parseReposGo] at hx
  | cons e t ih =>
    obtain ⟨key, v⟩ := e
    cases v with
    | obj r =>
      by_cases hc : (r.type == "composer") = true
      · simp only [parseReposGo, hc, if_true] at hx
        rcases List.mem_cons.mp hx with hx1 | hx1
        · refine ⟨r.url, ?_, hx1⟩
          simp only [composerUrlsOfEntries, List.filterMap_cons, hc, if_true]
          exact List.mem_cons_self _ _
        · obtain ⟨u, hu, he⟩ := ih hx1
          refine ⟨u, ?_, he⟩
          simp only [composerUrlsOfEntries, List.filterMap_cons, hc, if_true]
          exact List.mem_cons_of_mem _ (by simpa [composerUrlsOfEntries] using hu)
      · simp only [parseReposGo, hc, Bool.false_eq_true, if_false] at hx
        obtain ⟨u, hu, he⟩ := ih hx
        refine ⟨u, ?_, he⟩
        simp only [composerUrlsOfEntries, List.filterMap_cons]
        simp only [hc, Bool.false_eq_true, if_false]
        simpa [composerUrlsOfEntries] using hu
    | boolVal b =>
      simp only [parseReposGo] at hx
      split at hx <;>
      · obtain ⟨u, hu, he⟩ := ih hx
        refine ⟨u, ?_, he⟩
        simpa [composerUrlsOfEntries] using hu
    | other =>
      simp only [parseReposGo] at hx
      obtain ⟨u, hu, he⟩ := ih hx
      refine ⟨u, ?_, he⟩
      simpa [composerUrlsOfEntries] using hu

theorem packagistStep_httpBasic_not_basic (a : AuthJson) (r : HostRule)
    (h : hostRuleBasic r = false) :
    (packagistStep a r).httpBasic = a.httpBasic := by
  unfold packagistStep
  rw [h]
  simp only [Bool.false_eq_true, if_false]
  split <;> rfl

theorem packagistStep_bearer_form (a : AuthJson) (r : HostRule) :
    (packagistStep a r).bearer =
      (if hostRuleBearerFires r then
        some (a.bearer.getD [] ++ [(r.resolvedHost.getD "", r.token.getD "")])
      else a.bearer) := by
  unfold packagistStep hostRuleBearerFires
  by_cases hb : hostRuleBasic r = true
  · simp [hb]
  · have hb2 : hostRuleBasic r = false := by simpa using hb
    simp only [hb2, Bool.false_eq_true, if_false, Bool.not_false, Bool.true_and]
    split <;> rfl

theorem foldl_gitlabStep_githubOauth (gl : List HostRule) (a : AuthJson) :
    (gl.foldl gitlabStep a).githubOauth = a.githubOauth := by
  induction gl generalizing a with
  | nil => rfl
  | cons r t ih =>
    rw [List.foldl_cons, ih]
    unfold gitlabStep
    split <;> rfl

theorem foldl_gitlabStep_httpBasic (gl : List HostRule) (a : AuthJson) :
    (gl.foldl gitlabStep a).httpBasic = a.httpBasic := by
  induction gl generalizing a with
  | nil => rfl
  | cons r t ih =>
    rw [List.foldl_cons, ih]
    unfold gitlabStep
    split <;> rfl

theorem foldl_gitlabStep_bearer (gl : List HostRule) (a : AuthJson) :
    (gl.foldl gitlabStep a).bearer = a.bearer := by
  induction gl generalizing a with
  | nil => rfl
  | cons r t ih =>
    rw [List.foldl_cons, ih]
    unfold gitlabStep
    split <;> rfl

theorem foldl_packagistStep_githubOauth (pk : List HostRule) (a : AuthJson) :
    (pk.foldl packagistStep a).githubOauth = a.githubOauth := by
  induction pk generalizing a with
  | nil => rfl
  | cons r t ih =>
    rw [List.foldl_cons, ih]
    unfold packagistStep
    split
    · rfl
    · split <;> rfl

theorem foldl_packagistStep_gitlabToken (pk : List HostRule) (a : AuthJson) :
    (pk.foldl packagistStep a).gitlabToken = a.gitlabToken := by
  induction pk generalizing a with
  | nil => rfl
  | cons r t ih =>
    rw [List.foldl_cons, ih]
    unfold packagistStep
    split
    · rfl
    · split <;> rfl

theorem foldl_packagistStep_gitlabDomains (pk : List HostRule) (a : AuthJson) :
    (pk.foldl packagistStep a).gitlabDomains = a.gitlabDomains := by
  induction pk generalizing a with
  | nil => rfl
  | cons r t ih =>
    rw [List.foldl_cons, ih]
    unfold packagistStep
    split
    · rfl
    · split <;> rfl

theorem foldl_gitlabStep_token_none (gl : List HostRule) (a : AuthJson) :
    (gl.foldl gitlabStep a).gitlabToken = none ↔
      (a.gitlabToken = none ∧ ∀ r ∈ gl, jsTruthyOptStr r.token = false) := by
  induction gl generalizing a with
  | nil => simp
  | cons r t ih =>
    rw [List.foldl_cons, ih]
    by_cases h : jsTruthyOptStr r.token = true
    · simp [gitlabStep, h]
    · have h2 : jsTruthyOptStr r.token = false := by simpa using h
      simp [gitlabStep, h2]

theorem foldl_gitlabStep_domains_none (gl : List HostRule) (a : AuthJson) :
    (gl.foldl gitlabStep a).gitlabDomains = none ↔
      (a.gitlabDomains = none ∧ ∀ r ∈ gl, jsTruthyOptStr r.token = false) := by
  induction gl generalizing a with
  | nil => simp
  | cons r t ih =>
    rw [List.foldl_cons, ih]
    by_cases h : jsTruthyOptStr r.token = true
    · simp [gitlabStep, h]
    · have h2 : jsTruthyOptStr r.token = false := by simpa using h
      simp [gitlabStep, h2]

theorem foldl_packagistStep_httpBasic_none (pk : List HostRule) (a : AuthJson) :
    (pk.foldl packagistStep a).httpBasic = none ↔
      (a.httpBasic = none ∧ ∀ r ∈ pk, hostRuleBasic r = false) := by
  induction pk generalizing a with
  | nil => simp
  | cons r t ih =>
    rw [List.foldl_cons, ih]
    by_cases hb : hostRuleBasic r = true
    · simp [packagistStep, hb]
    · have hb2 : hostRuleBasic r = false := by simpa using hb
      rw [packagistStep_httpBasic_not_basic a r hb2]
      simp [hb2]

theorem foldl_packagistStep_bearer_none (pk : List HostRule) (a : AuthJson) :
    (pk.foldl packagistStep a).bearer = none ↔
      (a.bearer = none ∧ ∀ r ∈ pk, hostRuleBearerFires r = false) := by
  induction pk generalizing a with
  | nil => simp
  | cons r t ih =>
    rw [List.foldl_cons, ih, packagistStep_bearer_form]
    by_cases hf : hostRuleBearerFires r = true
    · simp [hf]
    · have hf2 : hostRuleBearerFires r = false := by simpa using hf
      simp [hf2]

theorem addGithubOauth_branches (s : Option String) (a : AuthJson)
    (h : authBranchesNonEmpty a = true) :
    authBranchesNonEmpty (addGithubOauth s a) = true := by
  unfold addGithubOauth
  split
  · simp_all [authBranchesNonEmpty]
  · exact h

theorem gitlabStep_branches (a : AuthJson) (r : HostRule)
    (h : authBranchesNonEmpty a = true) :
    authBranchesNonEmpty (gitlabStep a r) = true := by
  unfold gitlabStep
  split
  · simp_all [authBranchesNonEmpty]
  · exact h

theorem packagistStep_branches (a : AuthJson) (r : HostRule)
    (h : authBranchesNonEmpty a = true) :
    authBranchesNonEmpty (packagistStep a r) = true := by
  unfold packagistStep
  split
  · simp_all [authBranchesNonEmpty]
  · split
    · simp_all [authBranchesNonEmpty]
    · exact h

theorem foldl_gitlabStep_branches (gl : List HostRule) (a : AuthJson)
    (h : authBranchesNonEmpty a = true) :
    authBranchesNonEmpty (gl.foldl gitlabStep a) = true := by
  induction gl generalizing a with
  | nil => exact h
  | cons r t ih => exact ih _ (gitlabStep_branches a r h)

theorem foldl_packagistStep_branches (pk : List HostRule) (a : AuthJson)
    (h : authBranchesNonEmpty a = true) :
    authBranchesNonEmpty (pk.foldl packagistStep a) = true := by
  induction pk generalizing a with
  | nil => exact h
  | cons r t ih => exact ih _ (packagistStep_branches a r h)

/-- `getAuthJson` in explicit form. -/
theorem getAuthJson_eq (s : Option String) (gl pk : List HostRule) :
    getAuthJson s gl pk =
      (if isEmptyAuth (pk.foldl packagistStep
          (gl.foldl gitlabStep (addGithubOauth s {}))) = true then none
       else some (pk.foldl packagistStep
          (gl.foldl gitlabStep (addGithubOauth s {})))) := rfl

/-- The final structure is empty exactly when no credential rule fired. -/
theorem isEmptyAuth_final_iff (s : Option String) (gl pk : List HostRule) :
    isEmptyAuth (pk.foldl packagistStep
      (gl.foldl gitlabStep (addGithubOauth s {}))) = true ↔
      anyCredential s gl pk = false := by
  set a0 := addGithubOauth s {} with ha0
  set a1 := gl.foldl gitlabStep a0 with ha1
  set a2 := pk.foldl packagistStep a1 with ha2
  have hgo : a2.githubOauth = a0.githubOauth := by
    rw [ha2, foldl_packagistStep_githubOauth, ha1, foldl_gitlabStep_githubOauth]
  have hgt : a2.gitlabToken = a1.gitlabToken := by
    rw [ha2, foldl_packagistStep_gitlabToken]
  have hgd : a2.gitlabDomains = a1.gitlabDomains := by
    rw [ha2, foldl_packagistStep_gitlabDomains]
  have hhb1 : a1.httpBasic = a0.httpBasic := by
    rw [ha1, foldl_gitlabStep_httpBasic]
  have hbr1 : a1.bearer = a0.bearer := by
    rw [ha1, foldl_gitlabStep_bearer]
  have h0gt : a0.gitlabToken = none := by
    rw [ha0]; unfold addGithubOauth; split <;> rfl
  have h0gd : a0.gitlabDomains = none := by
    rw [ha0]; unfold addGithubOauth; split <;> rfl
  have h0hb : a0.httpBasic = none := by
    rw [ha0]; unfold addGithubOauth; split <;> rfl
  have h0br : a0.bearer = none := by
    rw [ha0]; unfold addGithubOauth; split <;> rfl
  constructor
  · intro hempty
    unfold isEmptyAuth at hempty
    simp only [Bool.and_eq_true, beq_iff_eq] at hempty
    obtain ⟨⟨⟨⟨h1, h2⟩, h3⟩, h4⟩, h5⟩ := hempty
    rw [hgo] at h1
    rw [hgt] at h2
    have hsel : jsTruthyOptStr s = false := by
      by_contra hs
      have hs2 : jsTruthyOptStr s = true := by simpa using hs
      rw [ha0] at h1
      unfold addGithubOauth at h1
      rw [hs2] at h1
      simp at h1
    have hgl : ∀ r ∈ gl, jsTruthyOptStr r.token = false :=
      ((foldl_gitlabStep_token_none gl a0).mp (by rw [← ha1]; exact h2)).2
    have hbasic : ∀ r ∈ pk, hostRuleBasic r = false :=
      ((foldl_packagistStep_httpBasic_none pk a1).mp (by rw [← ha2]; exact h4)).2
    have hbear : ∀ r ∈ pk, hostRuleBearerFires r = false :=
      ((foldl_packagistStep_bearer_none pk a1).mp (by rw [← ha2]; exact h5)).2
    unfold anyCredential
    simp only [Bool.or_eq_false_iff]
    refine ⟨⟨hsel, ?_⟩, ?_⟩
    · simp only [List.any_eq_false]
      intro r hr
      simp [hgl r hr]
    · simp only [List.any_eq_false]
      intro r hr
      have hb := hbasic r hr
      have hf := hbear r hr
      unfold hostRuleBearerFires at hf
      simp only [hb, Bool.not_false, Bool.true_and] at hf
      simp [hb, hf]
  · intro hany
    unfold anyCredential at hany
    simp only [Bool.or_eq_false_iff, List.any_eq_false] at hany
    obtain ⟨⟨hsel, hgl⟩, hpk⟩ := hany
    have h1 : a0.githubOauth = none := by
      rw [ha0]
      unfold addGithubOauth
      rw [hsel]
      simp only [Bool.false_eq_true, if_false]
    have h2 : a1.gitlabToken = none := by
      rw [ha1]
      exact (foldl_gitlabStep_token_none gl a0).mpr
        ⟨h0gt, fun r hr => by simpa using hgl r hr⟩
    have h3 : a1.gitlabDomains = none := by
      rw [ha1]
      exact (foldl_gitlabStep_domains_none gl a0).mpr
        ⟨h0gd, fun r hr => by simpa using hgl r hr⟩
    have h4 : a2.httpBasic = none := by
      rw [ha2]
      refine (foldl_packagistStep_httpBasic_none pk a1).mpr
        ⟨by rw [hhb1]; exact h0hb, fun r hr => ?_⟩
      have hb2 : (hostRuleBasic r || hostRuleBearer r) = false := by
        simpa using hpk r hr
      exact (Bool.or_eq_false_iff.mp hb2).1
    have h5 : a2.bearer = none := by
      rw [ha2]
      refine (foldl_packagistStep_bearer_none pk a1).mpr
        ⟨by rw [hbr1]; exact h0br, fun r hr => ?_⟩
      have hb2 : (hostRuleBasic r || hostRuleBearer r) = false := by
        simpa using hpk r hr
      obtain ⟨hc1, hc2⟩ := Bool.or_eq_false_iff.mp hb2
      unfold hostRuleBearerFires
      simp [hc1, hc2]
    unfold isEmptyAuth
    rw [hgo, h1, hgt, h2, hgd, h3, h4, h5]
    rfl

/-! ### Claim C1 -/

/-- C1, counterexample: in a run whose vendor directory existed and whose
lock file was modified, a deleted path lying outside the vendor directory
still yields a deletion entry — deletions are not excluded by prefix match,
contradicting the claim as stated. -/
theorem updateArtifacts_deletes_outside_vendor :
    c1CounterEnv.localPathExists
      (getSiblingFileName c1CounterUa.packageFileName "vendor") = true ∧
    "outside.txt" ∈ c1CounterStatus.deleted ∧
    jsStartsWith "outside.txt"
      (getSiblingFileName c1CounterUa.packageFileName "vendor") = false ∧
    (updateArtifacts c1CounterEnv c1CounterUa).1 = SynthOutcome.result (some
      [UpdateArtifactsResult.file (FileChange.addition "composer.lock"
        (some "contents of composer.lock")),
       UpdateArtifactsResult.file (FileChange.deletion "outside.txt")]) := by
  refine ⟨rfl, by decide, by decide, by decide⟩

/-- C1, amended: with a pre-existing vendor directory and a modified lock
file, the result set holds exactly the lock file addition, an addition (with
contents) for every modified or newly-added path under the vendor directory
(other paths excluded by prefix match), and a deletion for every deleted
path regardless of its location; no ArtifactError appears. -/
theorem updateArtifacts_vendor_characterization (env : SynthesisEnv)
    (ua : UpdateArtifact) (status : RepoStatus)
    (hlock : jsTruthyOptStr (env.readFile (composerLockName ua.packageFileName)) = true)
    (hpl : env.parseLock = .ok) (hpc : env.parseConfig = .ok)
    (hexec : env.execOutcome = .ok status)
    (hmod : status.modified.contains (composerLockName ua.packageFileName) = true)
    (hvendor : env.localPathExists (getSiblingFileName ua.packageFileName "vendor") = true) :
    ∃ res, (updateArtifacts env ua).1 = .result (some res) ∧
      (∀ p, UpdateArtifactsResult.file (FileChange.deletion p) ∈ res ↔
        p ∈ status.deleted) ∧
      (∀ p c, UpdateArtifactsResult.file (FileChange.addition p c) ∈ res ↔
        ((p = composerLockName ua.packageFileName ∧
          c = env.readFile (composerLockName ua.packageFileName)) ∨
         (p ∈ status.modified ++ status.not_added ∧
          jsStartsWith p (getSiblingFileName ua.packageFileName "vendor") = true ∧
          c = env.readFile p))) ∧
      (∀ e, UpdateArtifactsResult.artifactError e ∉ res) := by
  have hmod2 : composerLockName ua.packageFileName ∈ status.modified := by
    simpa using hmod
  refine ⟨[UpdateArtifactsResult.file (FileChange.addition
      (composerLockName ua.packageFileName)
      (env.readFile (composerLockName ua.packageFileName)))] ++
    (((status.modified ++ status.not_added).filter
        (fun f => jsStartsWith f (getSiblingFileName ua.packageFileName "vendor"))).map
      (fun f => UpdateArtifactsResult.file (FileChange.addition f (env.readFile f)))) ++
    (status.deleted.map (fun f => UpdateArtifactsResult.file (FileChange.deletion f))),
    by simp [updateArtifacts, hlock, hpl, hpc, hexec, hmod2, hvendor], ?_, ?_, ?_⟩
  · intro p
    simp [List.mem_append, List.mem_map, List.mem_filter]
  · intro p c
    simp only [List.append_assoc, List.mem_append, List.mem_singleton, List.mem_map,
      List.mem_filter]
    aesop
  · intro e
    simp [List.mem_append, List.mem_map, List.mem_filter]

/-- C1, witness: the amended characterization evaluated on a concrete run
with vendor additions and a vendor deletion under `a/vendor`. -/
theorem updateArtifacts_vendor_characterization_witness :
    ∃ res, (updateArtifacts c1WitnessEnv c1WitnessUa).1 =
        SynthOutcome.result (some res) ∧
      (∀ p, UpdateArtifactsResult.file (FileChange.deletion p) ∈ res ↔
        p ∈ c1WitnessStatus.deleted) ∧
      (∀ p c, UpdateArtifactsResult.file (FileChange.addition p c) ∈ res ↔
        ((p = composerLockName c1WitnessUa.packageFileName ∧
          c = c1WitnessEnv.readFile (composerLockName c1WitnessUa.packageFileName)) ∨
         (p ∈ c1WitnessStatus.modified ++ c1WitnessStatus.not_added ∧
          jsStartsWith p (getSiblingFileName c1WitnessUa.packageFileName "vendor") = true ∧
          c = c1WitnessEnv.readFile p))) ∧
      (∀ e, UpdateArtifactsResult.artifactError e ∉ res) :=
  updateArtifacts_vendor_characterization c1WitnessEnv c1WitnessUa c1WitnessStatus
    (by decide) rfl rfl rfl (by decide) (by decide)

/-! ### Claim C2 -/

/-- C2: whenever execution succeeds and the post-execution status does not
list the lock file among the modified paths, synthesis returns the absent
result — no ArtifactResult and no ArtifactError. -/
theorem updateArtifacts_unmodified_lock_returns_none (env : SynthesisEnv)
    (ua : UpdateArtifact) (status : RepoStatus)
    (hpl : env.parseLock = .ok) (hpc : env.parseConfig = .ok)
    (hexec : env.execOutcome = .ok status)
    (hmod : status.modified.contains (composerLockName ua.packageFileName) = false) :
    (updateArtifacts env ua).1 = .result none := by
  have hmod2 : composerLockName ua.packageFileName ∉ status.modified := by
    simpa using hmod
  cases h : jsTruthyOptStr (env.readFile (composerLockName ua.packageFileName)) with
  | false => simp [updateArtifacts, h]
  | true => simp [updateArtifacts, h, hpl, hpc, hexec, hmod2]

/-- C2, witness: a concrete run whose status modifies only an unrelated
file returns the absent result. -/
theorem updateArtifacts_unmodified_lock_returns_none_witness :
    (updateArtifacts c2WitnessEnv c2WitnessUa).1 = SynthOutcome.result none :=
  updateArtifacts_unmodified_lock_returns_none c2WitnessEnv c2WitnessUa
    c2WitnessStatus rfl rfl rfl (by decide)

/-! ### Claim C3 -/

/-- C3, counterexample: a failure message containing the disk-full
indication is NOT rethrown when it also contains the resolver text — the
resolver branch is checked first and returns an ArtifactError, so the claim
as stated (every disk-full message is rethrown) is false. -/
theorem updateArtifacts_disk_full_with_resolver_text :
    jsIncludes c3CounterMsg DISK_FULL_SNIPPET = true ∧
    (updateArtifacts c3CounterEnv c3CounterUa).1 = SynthOutcome.result (some
      [UpdateArtifactsResult.artifactError
        { lockFile := "composer.lock", stderr := c3CounterMsg }]) := by
  refine ⟨by decide, by decide⟩

/-- C3, amended: an execution error whose message contains the resolver's
"no installable set" text is returned as a single-element ArtifactError
carrying the lock file path and the raw message; an execution error whose
message contains the disk-full indication and not the resolver text is
rethrown as the fixed, distinct fatal error. -/
theorem updateArtifacts_error_classes (env : SynthesisEnv) (ua : UpdateArtifact)
    (msg : String)
    (hlock : jsTruthyOptStr (env.readFile (composerLockName ua.packageFileName)) = true)
    (hpl : env.parseLock = .ok) (hpc : env.parseConfig = .ok)
    (hexec : env.execOutcome = .error msg) :
    (jsIncludes msg RESOLVE_ERROR_SNIPPET = true →
      (updateArtifacts env ua).1 = .result (some [.artifactError
        { lockFile := composerLockName ua.packageFileName, stderr := msg }])) ∧
    (jsIncludes msg DISK_FULL_SNIPPET = true →
      jsIncludes msg RESOLVE_ERROR_SNIPPET = false →
      (updateArtifacts env ua).1 = .thrown SYSTEM_INSUFFICIENT_DISK_SPACE) := by
  have hred : (updateArtifacts env ua).1 =
      handleUpdateError (composerLockName ua.packageFileName) msg := by
    simp [updateArtifacts, hlock, hpl, hpc, hexec]
  rw [hred]
  constructor
  · intro hres
    by_cases ht : msg = TEMPORARY_ERROR_MSG
    · subst ht
      have hfalse : jsIncludes TEMPORARY_ERROR_MSG RESOLVE_ERROR_SNIPPET = false := by
        decide
      rw [hfalse] at hres
      exact absurd hres (by simp)
    · simp [handleUpdateError, ht, hres]
  · intro hdisk hres
    by_cases ht : msg = TEMPORARY_ERROR_MSG
    · subst ht
      have hfalse : jsIncludes TEMPORARY_ERROR_MSG DISK_FULL_SNIPPET = false := by
        decide
      rw [hfalse] at hdisk
      exact absurd hdisk (by simp)
    · simp [handleUpdateError, ht, hres, hdisk]

/-- C3, witness: the classification evaluated on a run raising exactly the
resolver message. -/
theorem updateArtifacts_error_classes_witness :
    (jsIncludes RESOLVE_ERROR_SNIPPET RESOLVE_ERROR_SNIPPET = true →
      (updateArtifacts c3WitnessEnv c3WitnessUa).1 = SynthOutcome.result (some
        [UpdateArtifactsResult.artifactError
          { lockFile := composerLockName c3WitnessUa.packageFileName,
            stderr := RESOLVE_ERROR_SNIPPET }])) ∧
    (jsIncludes RESOLVE_ERROR_SNIPPET DISK_FULL_SNIPPET = true →
      jsIncludes RESOLVE_ERROR_SNIPPET RESOLVE_ERROR_SNIPPET = false →
      (updateArtifacts c3WitnessEnv c3WitnessUa).1 =
        SynthOutcome.thrown SYSTEM_INSUFFICIENT_DISK_SPACE) :=
  updateArtifacts_error_classes c3WitnessEnv c3WitnessUa RESOLVE_ERROR_SNIPPET
    (by decide) rfl rfl rfl

/-! ### Claim C4 -/

/-- C4: the final planned command (the one actually executed last) is the
unscoped `composer update` for a lock-file-maintenance run, and otherwise
`composer update` scoped to exactly the shell-quoted changed dependency
names followed by `--with-dependencies`; in both cases the common argument
set is appended. -/
theorem updateArtifacts_final_command (env : SynthesisEnv) (ua : UpdateArtifact)
    (cmds : List String)
    (h : Effect.execCmds cmds ∈ (updateArtifacts env ua).2) :
    cmds ≠ [] ∧
    cmds.getLast? = some ("composer " ++
      ((if ua.config.isLockFileMaintenance then "update"
        else jsTrim ("update " ++ String.intercalate " "
          ((ua.updatedDeps.filterMap id).map env.quote)) ++ " --with-dependencies")
       ++ env.composerArgs)) := by
  have hc : cmds = buildCommands env ua := by
    rcases updateArtifacts_trace env ua with ht | ht | ht <;> rw [ht] at h <;>
      simp at h
    exact h
  subst hc
  unfold buildCommands mainComposerArgs
  cases env.requireInstall <;> simp

/-- C4, witness: the command shape evaluated on a concrete non-maintenance
run with two named updated dependencies and a required install step. -/
theorem updateArtifacts_final_command_witness :
    c4WitnessCmds ≠ [] ∧
    c4WitnessCmds.getLast? = some ("composer " ++
      ((if c4WitnessUa.config.isLockFileMaintenance then "update"
        else jsTrim ("update " ++ String.intercalate " "
          ((c4WitnessUa.updatedDeps.filterMap id).map c4WitnessEnv.quote))
          ++ " --with-dependencies")
       ++ c4WitnessEnv.composerArgs)) :=
  updateArtifacts_final_command c4WitnessEnv c4WitnessUa c4WitnessCmds (by decide)

/-! ### Claim C5 -/

/-- C5, counterexample: a composer repository URL ending in
`/packages.json/packages.json` has only one suffix stripped, so the URL
appended to the registry list still ends in `/packages.json`, contradicting
"never ends in /packages.json". -/
theorem parseRepositories_double_suffix_counterexample :
    (parseRepositories c5CounterRepoJson).2 =
      ["https://example.com/packages.json", "https://packagist.org"] ∧
    jsEndsWith "https://example.com/packages.json" packagesJsonEnding = true := by
  refine ⟨by decide, by decide⟩

/-- C5, amended: every URL in the registry list is either the default
registry or a declared composer-repository URL with exactly one trailing
`/packages.json` suffix removed; in particular a URL whose single suffix was
stripped no longer ends in it, but a URL that ended in the suffix twice
still does. -/
theorem parseRepositories_registry_urls (rj : ComposerRepositories) (x : String)
    (hx : x ∈ (parseRepositories rj).2) :
    x = "https://packagist.org" ∨
    ∃ u ∈ composerUrls rj, x = transformRegUrl u ∧
      (jsEndsWith u packagesJsonEnding = true → x ++ packagesJsonEnding = u) ∧
      (jsEndsWith u packagesJsonEnding = false → x = u) := by
  have hx2 : x ∈ (parseReposGo (isArrayRepos rj) (repoEntries rj)).registryUrls ∨
      x = "https://packagist.org" := by
    cases hp : (parseReposGo (isArrayRepos rj) (repoEntries rj)).packagist with
    | true =>
      simp only [parseRepositories, hp, if_true] at hx
      rcases List.mem_append.mp hx with h | h
      · exact Or.inl h
      · exact Or.inr (by simpa using h)
    | false =>
      simp only [parseRepositories, hp, Bool.false_eq_true, if_false] at hx
      exact Or.inl hx
  rcases hx2 with hx2 | hx2
  · obtain ⟨u, hu, he⟩ := mem_parseReposGo_urls _ _ x hx2
    right
    refine ⟨u, hu, he, ?_, ?_⟩
    · intro hend
      rw [he]
      exact transformRegUrl_append u hend
    · intro hend
      rw [he]
      exact transformRegUrl_noop u hend
  · exact Or.inl hx2

/-- C5, witness: the amended statement evaluated on a repositories block
with one composer URL carrying a single `/packages.json` suffix. -/
theorem parseRepositories_registry_urls_witness :
    "https://reg.example.com/sub" = "https://packagist.org" ∨
    ∃ u ∈ composerUrls c5WitnessRepoJson,
      "https://reg.example.com/sub" = transformRegUrl u ∧
      (jsEndsWith u packagesJsonEnding = true →
        "https://reg.example.com/sub" ++ packagesJsonEnding = u) ∧
      (jsEndsWith u packagesJsonEnding = false →
        "https://reg.example.com/sub" = u) :=
  parseRepositories_registry_urls c5WitnessRepoJson "https://reg.example.com/sub"
    (by decide)

/-! ### Claim C6 -/

/-- C6, counterexample: in a manifest whose only declared name is `php`
(which lacks a namespace separator), the extracted dependency carries no
skip reason at all — the reserved name bypasses the `unsupported` marking,
contradicting "every resulting Dependency is marked unsupported". -/
theorem extractDeps_php_not_unsupported :
    (∀ p ∈ c6CounterCfg.require.getD [] ++ c6CounterCfg.requireDev.getD [],
      (p.1.data.contains '/') = false) ∧
    extractDeps (fun _ => false) c6CounterCfg none =
      [phpDep "require" "php" "^8.1"] ∧
    (phpDep "require" "php" "^8.1").skipReason = none := by
  refine ⟨by decide, by decide, rfl⟩

/-- C6, amended: when every declared dependency name lacks a namespace
separator, the output count equals the number of declared pairs, and every
resulting Dependency is marked `unsupported` except the reserved dependency
`php` (special-cased to the interpreter datasource, no skip reason) and
dependencies bound to a path-typed named repository (marked
`path-dependency`). -/
theorem extractDeps_unscoped_unsupported (iv : String → Bool)
    (cfg : ComposerConfig) (lock : Option ComposerLock)
    (hall : ∀ p ∈ cfg.require.getD [] ++ cfg.requireDev.getD [],
      (p.1.data.contains '/') = false) :
    (extractDeps iv cfg lock).length =
      (cfg.require.getD [] ++ cfg.requireDev.getD []).length ∧
    ∀ d ∈ extractDeps iv cfg lock,
      d.depName = "php" ∨ d.skipReason = some "path-dependency" ∨
        d.skipReason = some "unsupported" := by
  constructor
  · simp [extractDeps, extractGroup]
  · intro d hd
    rcases mem_extractDeps iv cfg lock d hd with ⟨p, hp, he⟩ | ⟨p, hp, he⟩ <;>
    · have hslash : (p.1.data.contains '/') = false := by
        refine hall p ?_
        simp [hp]
      subst he
      rw [extractDep_depName]
      by_cases hphp : p.1 = "php"
      · exact Or.inl hphp
      · have hphp2 : (p.1 == "php") = false := by simpa using hphp
        right
        unfold extractDep
        simp only [hphp2, Bool.false_eq_true, if_false]
        cases hl : lookupRepo (reposOf cfg) p.1 with
        | none =>
          right
          exact regularDep_skipReason_unscoped iv none (registryUrlsOf cfg)
            lock _ p.1 _ hslash
        | some r =>
          cases hpath : (r.type == "path") with
          | true =>
            left
            simp only [hpath, if_true]
          | false =>
            right
            simp only [hpath, Bool.false_eq_true, if_false]
            exact regularDep_skipReason_unscoped iv (some r) (registryUrlsOf cfg)
              lock _ p.1 _ hslash

/-- C6, witness: the amended statement evaluated on a manifest declaring
two unscoped non-reserved names, one per group. -/
theorem extractDeps_unscoped_unsupported_witness :
    (extractDeps (fun _ => false) c6WitnessCfg none).length =
      (c6WitnessCfg.require.getD [] ++ c6WitnessCfg.requireDev.getD []).length ∧
    ∀ d ∈ extractDeps (fun _ => false) c6WitnessCfg none,
      d.depName = "php" ∨ d.skipReason = some "path-dependency" ∨
        d.skipReason = some "unsupported" :=
  extractDeps_unscoped_unsupported (fun _ => false) c6WitnessCfg none (by decide)

/-! ### Claim C7 -/

/-- C7, counterexample: a dependency named `php` that matches a path-typed
named repository is NOT marked `path-dependency` — the reserved-name branch
wins and assigns the interpreter datasource, contradicting the claim for
every dependency matching a path-typed repository. -/
theorem extractDeps_php_path_repo_not_skipped :
    lookupRepo (reposOf c7CounterCfg) "php" = some c7CounterRepo ∧
    c7CounterRepo.type = "path" ∧
    extractDeps (fun _ => false) c7CounterCfg none =
      [phpDep "require" "php" "^8.1"] ∧
    (phpDep "require" "php" "^8.1").skipReason = none ∧
    (phpDep "require" "php" "^8.1").datasource = some githubTagsDatasourceId := by
  refine ⟨by decide, rfl, by decide, rfl, rfl⟩

/-- C7, amended: every extracted dependency other than the reserved name
`php` whose name matches a path-typed named repository carries skip reason
`path-dependency` and has no datasource, no package identifier and no
registry URLs. -/
theorem extractDeps_path_dependency (iv : String → Bool) (cfg : ComposerConfig)
    (lock : Option ComposerLock) (d : PackageDependency) (r : ComposerRepository)
    (hd : d ∈ extractDeps iv cfg lock) (hphp : d.depName ≠ "php")
    (hr : lookupRepo (reposOf cfg) d.depName = some r) (hpath : r.type = "path") :
    d.skipReason = some "path-dependency" ∧ d.datasource = none ∧
      d.packageName = none ∧ d.registryUrls = none := by
  have hphp2 : (d.depName == "php") = false := by
    simpa using hphp
  rcases mem_extractDeps iv cfg lock d hd with ⟨p, hp, he⟩ | ⟨p, hp, he⟩ <;>
  · rw [he] at hr hphp2 ⊢
    rw [extractDep_depName] at hr hphp2
    rw [extractDep_path iv _ _ lock _ p.1 p.2 r hphp2 hr hpath]
    exact ⟨rfl, rfl, rfl, rfl⟩

/-- C7, witness: the amended statement evaluated on a manifest binding
`acme/local` to a path-typed repository. -/
theorem extractDeps_path_dependency_witness :
    c7WitnessDep.skipReason = some "path-dependency" ∧
    c7WitnessDep.datasource = none ∧ c7WitnessDep.packageName = none ∧
    c7WitnessDep.registryUrls = none :=
  extractDeps_path_dependency (fun _ => false) c7WitnessCfg none c7WitnessDep
    c7WitnessRepo (by decide) (by decide) (by decide) rfl

/-! ### Claim C8 -/

/-- C8, counterexample: the manifest declares `php` and the lock's
production list holds a record named `php` with a version every validity
check accepts, yet the extracted dependency records no locked version — the
reserved-name branch skips the lock lookup, contradicting the claim for
every declared dependency with a matching lock record. -/
theorem extractDeps_php_locked_version_ignored :
    ((c8CounterLock.packages).getD []).find?
      (fun item => item.name == "php") =
      some { name := "php", version := "v1.2.3" } ∧
    extractDeps (fun _ => true) c8CounterCfg (some c8CounterLock) =
      [phpDep "require" "php" "^8.1"] ∧
    (phpDep "require" "php" "^8.1").lockedVersion = none := by
  refine ⟨by decide, by decide, rfl⟩

/-- C8, amended: for every extracted dependency other than the reserved
name `php` and not bound to a path-typed named repository, if the first
record of the same name in the group-appropriate lock list has a version the
validity check accepts, the dependency's locked version is that version with
one leading `v` (or `V`) stripped. -/
theorem extractDeps_locked_version (iv : String → Bool) (cfg : ComposerConfig)
    (lock : ComposerLock) (d : PackageDependency) (rec : ComposerLockRecord)
    (hd : d ∈ extractDeps iv cfg (some lock)) (hphp : d.depName ≠ "php")
    (hnopath : ∀ r, lookupRepo (reposOf cfg) d.depName = some r → r.type ≠ "path")
    (hfind : ((if d.depType == "require" then lock.packages
        else lock.packagesDev).getD []).find?
        (fun item => item.name == d.depName) = some rec)
    (hver : iv rec.version = true) :
    d.lockedVersion = some (stripLeadingV rec.version) := by
  have hphp2 : (d.depName == "php") = false := by simpa using hphp
  rcases mem_extractDeps iv cfg (some lock) d hd with ⟨p, hp, he⟩ | ⟨p, hp, he⟩ <;>
  · rw [he] at hphp2 hnopath hfind ⊢
    rw [extractDep_depName] at hphp2 hnopath hfind
    rw [extractDep_depType] at hfind
    unfold extractDep
    simp only [hphp2, Bool.false_eq_true, if_false]
    cases hl : lookupRepo (reposOf cfg) p.1 with
    | none => exact regularDep_lockedVersion iv none _ lock _ p.1 _ rec hfind hver
    | some r =>
      have hrp : r.type ≠ "path" := hnopath r hl
      have hpath : (r.type == "path") = false := by simpa using hrp
      simp only [hpath, Bool.false_eq_true, if_false]
      exact regularDep_lockedVersion iv (some r) _ lock _ p.1 _ rec hfind hver

/-- C8, witness: the amended statement evaluated on a manifest declaring
`foo/bar` with a lock record `v1.2.3`; the locked version is `1.2.3`. -/
theorem extractDeps_locked_version_witness :
    c8WitnessDep.lockedVersion = some (stripLeadingV "v1.2.3") :=
  extractDeps_locked_version (fun _ => true) c8WitnessCfg c8WitnessLock
    c8WitnessDep { name := "foo/bar", version := "v1.2.3" } (by decide)
    (by decide)
    (by intro r hr; simp [reposOf, c8WitnessCfg, lookupRepo] at hr)
    (by decide) rfl

/-! ### Claim C9 -/

/-- C9: the credential payload is absent exactly when no credential rule
yields a token or username/password pair the assembler collects, and a
present payload contains only populated branches (no branch is an
empty-but-present structure). -/
theorem getAuthJson_absent_iff (selectedGithubToken : Option String)
    (gitlabRules packagistRules : List HostRule) :
    (getAuthJson selectedGithubToken gitlabRules packagistRules = none ↔
      anyCredential selectedGithubToken gitlabRules packagistRules = false) ∧
    (getAuthJson selectedGithubToken gitlabRules packagistRules).all
      authBranchesNonEmpty = true := by
  rw [getAuthJson_eq]
  constructor
  · by_cases hIE : isEmptyAuth (packagistRules.foldl packagistStep
        (gitlabRules.foldl gitlabStep (addGithubOauth selectedGithubToken {}))) = true
    · rw [if_pos hIE]
      simp only [true_iff]
      exact (isEmptyAuth_final_iff selectedGithubToken gitlabRules packagistRules).mp hIE
    · rw [if_neg hIE]
      constructor
      · intro hc
        exact absurd hc (by simp)
      · intro hc
        exact absurd ((isEmptyAuth_final_iff
          selectedGithubToken gitlabRules packagistRules).mpr hc) hIE
  · by_cases hIE : isEmptyAuth (packagistRules.foldl packagistStep
        (gitlabRules.foldl gitlabStep (addGithubOauth selectedGithubToken {}))) = true
    · rw [if_pos hIE]
      rfl
    · rw [if_neg hIE]
      exact foldl_packagistStep_branches _ _
        (foldl_gitlabStep_branches _ _ (addGithubOauth_branches _ _ (by rfl)))

/-! ### Claim C10 -/

/-- C10: when the sibling lock path reads as absent or empty, synthesis
returns the absent result immediately, with no manifest write and no
command execution. -/
theorem updateArtifacts_missing_lock (env : SynthesisEnv) (ua : UpdateArtifact)
    (h : jsTruthyOptStr (env.readFile (composerLockName ua.packageFileName)) = false) :
    updateArtifacts env ua = (.result none, []) := by
  simp [updateArtifacts, h]

/-- C10, witness: a concrete run whose lock file reads as absent. -/
theorem updateArtifacts_missing_lock_witness :
    updateArtifacts c10WitnessEnv c10WitnessUa = (SynthOutcome.result none, []) :=
  updateArtifacts_missing_lock c10WitnessEnv c10WitnessUa (by decide)
